import Mathlib

/-!
Shallow embedding of the async-safe utility core (PLCrashAsync.c): the
byte primitives (memcpy, bounded string compare), the raw looping write
primitive, and the bounded buffered file writer, together with proofs of
the specified properties.

Bytes are modelled as natural numbers (the values of C unsigned chars);
machine-word overflow is irrelevant at the value ranges these claims
quantify over, except for the size_t post-decrement in the compare loop,
which is modelled faithfully by the control flow of strncmpLoop.
-/

namespace Crash

/-- Tag recording which pointer argument a primitive returns. -/
inductive PtrTag where
  | dest
  | source
  deriving DecidableEq, Repr

/-- The copy loop of plcrash_async_memcpy: for count in [0, n), the
byte at index count of the source is stored at index count of the
destination region. Indices outside the destination are ignored by
List.set, matching the precondition that the destination holds n bytes. -/
def memcpyLoop (dest source : List Nat) : Nat → List Nat
  | 0 => dest
  | n + 1 => (memcpyLoop dest source n).set n (source.getD n 0)

/-- plcrash_async_memcpy: copies n bytes one at a time and returns the
source pointer (the C function ends with return (void *) source). -/
def plcrash_async_memcpy (dest source : List Nat) (n : Nat) : List Nat × PtrTag :=
  (memcpyLoop dest source n, PtrTag.source)

theorem memcpyLoop_length (dest source : List Nat) (n : Nat) :
    (memcpyLoop dest source n).length = dest.length := by
  induction n with
  | zero => rfl
  | succ n ih => simp [memcpyLoop, ih]

theorem memcpyLoop_getD (dest source : List Nat) (n i : Nat) :
    (memcpyLoop dest source n).getD i 0 =
      if i < n ∧ i < dest.length then source.getD i 0 else dest.getD i 0 := by
  induction n with
  | zero =>
    simp [memcpyLoop]
  | succ n ih =>
    by_cases hi : i = n
    · subst hi
      by_cases hlen : i < dest.length
      · have hlt : i < (memcpyLoop dest source i).length := by
          rw [memcpyLoop_length]; exact hlen
        simp [memcpyLoop, List.getD, List.getElem?_set_self hlt, hlen]
      · have hge : (memcpyLoop dest source i).length ≤ i := by
          rw [memcpyLoop_length]; omega
        rw [memcpyLoop, List.set_eq_of_length_le hge]
        simpa [hlen] using ih
    · have : ((memcpyLoop dest source n).set n (source.getD n 0)).getD i 0 =
          (memcpyLoop dest source n).getD i 0 := by
        simp [List.getD, List.getElem?_set_ne (by omega : n ≠ i)]
      rw [memcpyLoop, this, ih]
      by_cases h1 : i < n
      · simp [h1, show i < n + 1 by omega]
      · have h2 : ¬ i < n + 1 := by omega
        simp [h1, h2]

/-- Byte at index i of a null-terminated string: the list holds the
bytes before the terminator, and index list.length reads the
terminating 0. Scans below never go past the first 0 byte. -/
def cByte (s : List Nat) (i : Nat) : Nat := (s ++ [0]).getD i 0

/-- The loop of plcrash_async_strncmp, with the post-increment of s2
and post-decrement of n modelled by the index i and the budget n. The
C loop first compares the bytes; only if they are equal does it test
and decrement the size_t budget; when the budget test fails the budget
underflows to SIZE_MAX, so the final `n == 0` test is false and the
function returns the difference of the (equal) current bytes, which is
0 - hence the budget-exhausted-while-equal arm returns 0 directly. -/
def strncmpLoop (s1 s2 : List Nat) (i : Nat) : Nat → Int
  | 0 =>
    if cByte s1 i = cByte s2 i then
      0
    else
      if (0 : Nat) = 0 then 0
      else (cByte s1 i : Int) - (cByte s2 i : Int)
  | n + 1 =>
    if cByte s1 i = cByte s2 i then
      if cByte s1 i = 0 then 0
      else strncmpLoop s1 s2 (i + 1) n
    else
      if n + 1 = 0 then 0
      else (cByte s1 i : Int) - (cByte s2 i : Int)

/-- plcrash_async_strncmp on null-terminated byte strings. -/
def plcrash_async_strncmp (s1 s2 : List Nat) (n : Nat) : Int :=
  strncmpLoop s1 s2 0 n

/-- Helper for the spec-side compare, scanning from index i. -/
def boundedCompareSpecGo (s1 s2 : List Nat) (i : Nat) : Nat → Int
  | 0 => 0
  | n + 1 =>
    if cByte s1 i = cByte s2 i then
      if cByte s1 i = 0 then 0
      else boundedCompareSpecGo s1 s2 (i + 1) n
    else (cByte s1 i : Int) - (cByte s2 i : Int)

/-- Spec-side definition, written from the specification text: compare
up to n bytes, byte by byte; return the signed difference of the first
differing byte (as unsigned values); return 0 if a common terminator
is reached before n is exhausted or if n reaches zero during the scan
(the budget check happens before the byte comparison). -/
def boundedCompareSpec (s1 s2 : List Nat) (n : Nat) : Int :=
  boundedCompareSpecGo s1 s2 0 n

theorem strncmpLoop_eq_specGo (s1 s2 : List Nat) (n i : Nat) :
    strncmpLoop s1 s2 i n = boundedCompareSpecGo s1 s2 i n := by
  induction n generalizing i with
  | zero =>
    simp only [strncmpLoop, boundedCompareSpecGo]
    split <;> simp
  | succ n ih =>
    simp only [strncmpLoop, boundedCompareSpecGo]
    split
    · split
      · rfl
      · exact ih (i + 1)
    · simp

/-- Outcome of one underlying OS write call, as seen by the retry loop
of plcrash_async_writen: `ok k` means the call delivered min (k + 1)
left bytes (a short write delivers fewer than requested but at least
one), `intr` means it failed with EINTR (retried, nothing delivered),
`err` means it failed with any other errno. -/
inductive WriteResult where
  | ok (k : Nat)
  | intr
  | err
  deriving DecidableEq, Repr

/-- plcrash_async_writen: loops issuing a blocking write of the
remaining tail until all bytes are delivered or a non-EINTR error
occurs. The handle is the byte content of the output file; the oracle
supplies the outcome of each underlying write call (an exhausted
oracle while bytes remain is read as an error). Returns the new handle
contents, the success flag (the C caller tests the result against 0),
and the unconsumed oracle. -/
def plcrash_async_writen (handle data : List Nat) (oracle : List WriteResult) :
    List Nat × Bool × List WriteResult :=
  match data, oracle with
  | [], o => (handle, true, o)
  | _ :: _, [] => (handle, false, [])
  | b :: bs, WriteResult.ok k :: o =>
    let w := min (k + 1) (b :: bs).length
    plcrash_async_writen (handle ++ (b :: bs).take w) ((b :: bs).drop w) o
  | b :: bs, WriteResult.intr :: o => plcrash_async_writen handle (b :: bs) o
  | _ :: _, WriteResult.err :: o => (handle, false, o)

/-- On success, plcrash_async_writen has appended exactly its data to
the handle, each byte delivered once. -/
theorem writen_ok (handle data : List Nat) (oracle : List WriteResult) :
    (plcrash_async_writen handle data oracle).2.1 = true →
    (plcrash_async_writen handle data oracle).1 = handle ++ data := by
  induction oracle generalizing handle data with
  | nil =>
    cases data with
    | nil => intro _; simp [plcrash_async_writen]
    | cons b bs => intro h; simp [plcrash_async_writen] at h
  | cons r o ih =>
    cases data with
    | nil => intro _; simp [plcrash_async_writen]
    | cons b bs =>
      cases r with
      | ok k =>
        intro h
        rw [plcrash_async_writen] at h ⊢
        rw [ih _ _ h, List.append_assoc, List.take_append_drop]
      | intr =>
        intro h
        rw [plcrash_async_writen] at h ⊢
        exact ih _ _ h
      | err => intro h; simp [plcrash_async_writen] at h

/-- The plcrash_async_file_t state. The file descriptor number is not
modelled (the output file contents are threaded separately as the
handle list); limit_bytes and total_bytes are the off_t counters, kept
as naturals since the claims range over non-negative values far from
overflow. Modelled from the spec: the header declaring the struct is
not in the sources, and in particular the compile-time constant
sizeof(file->buffer) is unknown; the buffer is therefore modelled as a
list whose length is the fixed capacity chosen at construction, with
arbitrary junk contents beyond buflen, exactly as in the C struct. -/
structure plcrash_async_file_t where
  limit_bytes : Nat
  total_bytes : Nat
  buffer : List Nat
  buflen : Nat
  deriving DecidableEq, Repr

/-- plcrash_async_file_init: stores the limit and zeroes the counters;
the buffer region itself is left uninitialized (the caller of the
model supplies its junk contents, whose length is the capacity). -/
def plcrash_async_file_init (buffer : List Nat) (output_limit : Nat) :
    plcrash_async_file_t :=
  { limit_bytes := output_limit, total_bytes := 0, buffer := buffer, buflen := 0 }

/-- The call plcrash_async_memcpy (file.buffer + off) data len: the
destination pointer is off bytes into the buffer, so the copy rewrites
the region of the buffer from off on, leaving the first off bytes. -/
def storeBytes (buf : List Nat) (off : Nat) (data : List Nat) : List Nat :=
  buf.take off ++ (plcrash_async_memcpy (buf.drop off) data data.length).1

theorem storeBytes_length (buf : List Nat) (off : Nat) (data : List Nat)
    (h : off ≤ buf.length) : (storeBytes buf off data).length = buf.length := by
  simp [storeBytes, plcrash_async_memcpy, memcpyLoop_length]
  omega

/-- The tail of plcrash_async_file_write after the limit check and the
conditional flush: if the data now fits in the buffer, buffer it via
plcrash_async_memcpy and return true; otherwise issue one raw write of
the data itself and return its status. -/
def fileWriteFitStage (f : plcrash_async_file_t) (handle data : List Nat)
    (oracle : List WriteResult) :
    plcrash_async_file_t × List Nat × Bool × List WriteResult :=
  if data.length + f.buflen ≤ f.buffer.length then
    ({ f with buffer := storeBytes f.buffer f.buflen data,
              buflen := f.buflen + data.length }, handle, true, oracle)
  else
    let r := plcrash_async_writen handle data oracle
    (f, r.1, r.2.1, r.2.2)

/-- The part of plcrash_async_file_write after the limit check and
accounting: flush the buffer when the new data would overflow it
(returning false and keeping buflen if that flush fails), then the fit
stage. -/
def fileWriteBody (f1 : plcrash_async_file_t) (handle data : List Nat)
    (oracle : List WriteResult) :
    plcrash_async_file_t × List Nat × Bool × List WriteResult :=
  if f1.buflen + data.length > f1.buffer.length then
    let r := plcrash_async_writen handle (f1.buffer.take f1.buflen) oracle
    if r.2.1 then fileWriteFitStage { f1 with buflen := 0 } r.1 data r.2.2
    else (f1, r.1, false, r.2.2)
  else
    fileWriteFitStage f1 handle data oracle

/-- plcrash_async_file_write: limit check (rejecting without mutating
anything), speculative accounting of total_bytes when a limit is set,
then the flush and fit stages. -/
def plcrash_async_file_write (f : plcrash_async_file_t) (handle data : List Nat)
    (oracle : List WriteResult) :
    plcrash_async_file_t × List Nat × Bool × List WriteResult :=
  if f.limit_bytes ≠ 0 ∧ data.length + f.total_bytes > f.limit_bytes then
    (f, handle, false, oracle)
  else
    fileWriteBody
      (if f.limit_bytes ≠ 0 then
        { f with total_bytes := f.total_bytes + data.length } else f)
      handle data oracle

/-- plcrash_async_file_flush: nothing to do when the buffer is empty;
otherwise one raw write of the buflen buffered bytes, resetting buflen
on success and leaving the state untouched on failure. -/
def plcrash_async_file_flush (f : plcrash_async_file_t) (handle : List Nat)
    (oracle : List WriteResult) :
    plcrash_async_file_t × List Nat × Bool × List WriteResult :=
  if f.buflen = 0 then
    (f, handle, true, oracle)
  else
    let r := plcrash_async_writen handle (f.buffer.take f.buflen) oracle
    if r.2.1 then ({ f with buflen := 0 }, r.1, true, r.2.2)
    else (f, r.1, false, r.2.2)

/-- plcrash_async_file_close: flush, propagating a flush failure
without closing; then close the descriptor, whose own success or
failure at the OS level is supplied by closeOk. -/
def plcrash_async_file_close (f : plcrash_async_file_t) (handle : List Nat)
    (oracle : List WriteResult) (closeOk : Bool) :
    plcrash_async_file_t × List Nat × Bool × List WriteResult :=
  let r := plcrash_async_file_flush f handle oracle
  if r.2.2.1 then (r.1, r.2.1, closeOk, r.2.2.2)
  else (r.1, r.2.1, false, r.2.2.2)

/-- One operation applied to a writer, carrying the oracle entries its
raw writes consume (and, for close, the OS result of closing the
descriptor). -/
inductive FileOp where
  | write (data : List Nat) (oracle : List WriteResult)
  | flush (oracle : List WriteResult)
  | close (oracle : List WriteResult) (closeOk : Bool)
  deriving Repr

/-- Apply one operation to a writer and handle, keeping the state, the
handle contents, and the boolean result. -/
def runOp (s : plcrash_async_file_t × List Nat) (op : FileOp) :
    plcrash_async_file_t × List Nat × Bool :=
  match op with
  | FileOp.write data oracle =>
    let r := plcrash_async_file_write s.1 s.2 data oracle
    (r.1, r.2.1, r.2.2.1)
  | FileOp.flush oracle =>
    let r := plcrash_async_file_flush s.1 s.2 oracle
    (r.1, r.2.1, r.2.2.1)
  | FileOp.close oracle closeOk =>
    let r := plcrash_async_file_close s.1 s.2 oracle closeOk
    (r.1, r.2.1, r.2.2.1)

/-- Run a sequence of operations, discarding the per-call results. -/
def runOps (s : plcrash_async_file_t × List Nat) : List FileOp →
    plcrash_async_file_t × List Nat
  | [] => s
  | op :: ops => runOps ((runOp s op).1, (runOp s op).2.1) ops

/-- Run a sequence of write calls, returning the final state and
handle together with the conjunction of all the boolean results. -/
def runWrites (f : plcrash_async_file_t) (handle : List Nat) :
    List (List Nat × List WriteResult) → plcrash_async_file_t × List Nat × Bool
  | [] => (f, handle, true)
  | p :: ws =>
    let r0 := plcrash_async_file_write f handle p.1 p.2
    let r := runWrites r0.1 r0.2.1 ws
    (r.1, r.2.1, r0.2.2.1 && r.2.2)

/-- The lengths of the data chunks of the write operations of a
sequence, in order. -/
def writeLens (ops : List FileOp) : List Nat :=
  ops.filterMap fun op =>
    match op with
    | FileOp.write d _ => some d.length
    | _ => none

/-- Spec-side accounting of the limit check: starting from a running
total t, fold the lengths of the successive write calls, adding a
length exactly when the writer has a nonzero limit and the length
still fits under it. -/
def limitAcceptedTotal (limit : Nat) (t : Nat) : List Nat → Nat
  | [] => t
  | len :: lens =>
    if limit ≠ 0 ∧ len + t > limit then limitAcceptedTotal limit t lens
    else if limit ≠ 0 then limitAcceptedTotal limit (t + len) lens
    else limitAcceptedTotal limit t lens

theorem fitStage_fields (f : plcrash_async_file_t) (handle data : List Nat)
    (o : List WriteResult) :
    (fileWriteFitStage f handle data o).1.limit_bytes = f.limit_bytes ∧
    (fileWriteFitStage f handle data o).1.total_bytes = f.total_bytes ∧
    (fileWriteFitStage f handle data o).1.buffer.length = f.buffer.length := by
  by_cases hfit : data.length + f.buflen ≤ f.buffer.length
  · simp only [fileWriteFitStage, if_pos hfit]
    exact ⟨trivial, trivial, storeBytes_length _ _ _ (by omega)⟩
  · simp only [fileWriteFitStage, if_neg hfit]
    exact ⟨trivial, trivial, trivial⟩

theorem fitStage_buflen_le (f : plcrash_async_file_t) (handle data : List Nat)
    (o : List WriteResult) (hb : f.buflen ≤ f.buffer.length) :
    (fileWriteFitStage f handle data o).1.buflen ≤
      (fileWriteFitStage f handle data o).1.buffer.length := by
  by_cases hfit : data.length + f.buflen ≤ f.buffer.length
  · simp only [fileWriteFitStage, if_pos hfit]
    rw [storeBytes_length _ _ _ (by omega : f.buflen ≤ f.buffer.length)]
    omega
  · simp only [fileWriteFitStage, if_neg hfit]
    exact hb

theorem fitStage_ok_account (f : plcrash_async_file_t) (handle data : List Nat)
    (o : List WriteResult)
    (hok : (fileWriteFitStage f handle data o).2.2.1 = true) :
    (fileWriteFitStage f handle data o).2.1.length +
        (fileWriteFitStage f handle data o).1.buflen =
      handle.length + f.buflen + data.length := by
  by_cases hfit : data.length + f.buflen ≤ f.buffer.length
  · simp only [fileWriteFitStage, if_pos hfit]
    omega
  · simp only [fileWriteFitStage, if_neg hfit] at hok ⊢
    rw [writen_ok _ _ _ hok]
    simp
    omega

theorem body_fields (f1 : plcrash_async_file_t) (handle data : List Nat)
    (o : List WriteResult) :
    (fileWriteBody f1 handle data o).1.limit_bytes = f1.limit_bytes ∧
    (fileWriteBody f1 handle data o).1.total_bytes = f1.total_bytes ∧
    (fileWriteBody f1 handle data o).1.buffer.length = f1.buffer.length := by
  by_cases hov : f1.buflen + data.length > f1.buffer.length
  · simp only [fileWriteBody, if_pos hov]
    by_cases hfl : (plcrash_async_writen handle (f1.buffer.take f1.buflen) o).2.1 = true
    · simp only [hfl, if_pos rfl]
      exact fitStage_fields _ _ _ _
    · simp only [Bool.not_eq_true] at hfl
      simp [hfl]
  · simp only [fileWriteBody, if_neg hov]
    exact fitStage_fields _ _ _ _

theorem write_fields (f : plcrash_async_file_t) (handle data : List Nat)
    (o : List WriteResult) :
    (plcrash_async_file_write f handle data o).1.limit_bytes = f.limit_bytes ∧
    (plcrash_async_file_write f handle data o).1.buffer.length = f.buffer.length := by
  by_cases hrej : f.limit_bytes ≠ 0 ∧ data.length + f.total_bytes > f.limit_bytes
  · simp only [plcrash_async_file_write, if_pos hrej]
    exact ⟨trivial, trivial⟩
  · simp only [plcrash_async_file_write, if_neg hrej]
    refine ⟨?_, ?_⟩
    · rw [(body_fields _ _ _ _).1]
      by_cases hl : f.limit_bytes ≠ 0 <;> simp [hl]
    · rw [(body_fields _ _ _ _).2.2]
      by_cases hl : f.limit_bytes ≠ 0 <;> simp [hl]

theorem write_total (f : plcrash_async_file_t) (handle data : List Nat)
    (o : List WriteResult) :
    (plcrash_async_file_write f handle data o).1.total_bytes =
      if f.limit_bytes ≠ 0 ∧ data.length + f.total_bytes > f.limit_bytes then
        f.total_bytes
      else if f.limit_bytes ≠ 0 then f.total_bytes + data.length
      else f.total_bytes := by
  by_cases hrej : f.limit_bytes ≠ 0 ∧ data.length + f.total_bytes > f.limit_bytes
  · simp [plcrash_async_file_write, if_pos hrej, hrej]
  · simp only [plcrash_async_file_write, if_neg hrej]
    rw [(body_fields _ _ _ _).2.1]
    by_cases hl : f.limit_bytes ≠ 0 <;> simp [hl, hrej]

theorem body_buflen_le (f1 : plcrash_async_file_t) (handle data : List Nat)
    (o : List WriteResult) (hb : f1.buflen ≤ f1.buffer.length) :
    (fileWriteBody f1 handle data o).1.buflen ≤
      (fileWriteBody f1 handle data o).1.buffer.length := by
  by_cases hov : f1.buflen + data.length > f1.buffer.length
  · simp only [fileWriteBody, if_pos hov]
    by_cases hfl : (plcrash_async_writen handle (f1.buffer.take f1.buflen) o).2.1 = true
    · simp only [hfl, if_pos rfl]
      exact fitStage_buflen_le _ _ _ _ (Nat.zero_le _)
    · simp only [Bool.not_eq_true] at hfl
      simp [hfl, hb]
  · simp only [fileWriteBody, if_neg hov]
    exact fitStage_buflen_le _ _ _ _ hb

theorem write_buflen_le (f : plcrash_async_file_t) (handle data : List Nat)
    (o : List WriteResult) (hb : f.buflen ≤ f.buffer.length) :
    (plcrash_async_file_write f handle data o).1.buflen ≤
      (plcrash_async_file_write f handle data o).1.buffer.length := by
  by_cases hrej : f.limit_bytes ≠ 0 ∧ data.length + f.total_bytes > f.limit_bytes
  · simp only [plcrash_async_file_write, if_pos hrej]
    exact hb
  · simp only [plcrash_async_file_write, if_neg hrej]
    apply body_buflen_le
    by_cases hl : f.limit_bytes ≠ 0 <;> simp [hl, hb]

theorem body_ok_account (f1 : plcrash_async_file_t) (handle data : List Nat)
    (o : List WriteResult) (hb : f1.buflen ≤ f1.buffer.length)
    (hok : (fileWriteBody f1 handle data o).2.2.1 = true) :
    (fileWriteBody f1 handle data o).2.1.length +
        (fileWriteBody f1 handle data o).1.buflen =
      handle.length + f1.buflen + data.length := by
  by_cases hov : f1.buflen + data.length > f1.buffer.length
  · simp only [fileWriteBody, if_pos hov] at hok ⊢
    by_cases hfl : (plcrash_async_writen handle (f1.buffer.take f1.buflen) o).2.1 = true
    · simp only [hfl, if_true] at hok ⊢
      have hacc := fitStage_ok_account _ _ _ _ hok
      rw [hacc, writen_ok _ _ _ hfl]
      simp only [List.length_append, List.length_take]
      omega
    · simp only [Bool.not_eq_true] at hfl
      simp [hfl] at hok
  · simp only [fileWriteBody, if_neg hov] at hok ⊢
    exact fitStage_ok_account _ _ _ _ hok

theorem write_ok_account (f : plcrash_async_file_t) (handle data : List Nat)
    (o : List WriteResult) (hb : f.buflen ≤ f.buffer.length)
    (hok : (plcrash_async_file_write f handle data o).2.2.1 = true) :
    (plcrash_async_file_write f handle data o).2.1.length +
        (plcrash_async_file_write f handle data o).1.buflen =
      handle.length + f.buflen + data.length := by
  by_cases hrej : f.limit_bytes ≠ 0 ∧ data.length + f.total_bytes > f.limit_bytes
  · simp only [plcrash_async_file_write, if_pos hrej] at hok
    simp at hok
  · simp only [plcrash_async_file_write, if_neg hrej] at hok ⊢
    by_cases hl : f.limit_bytes ≠ 0 <;>
      simpa [hl] using body_ok_account _ _ _ _ (by simp [hl, hb]) (by simpa [hl] using hok)

theorem flush_fields (f : plcrash_async_file_t) (handle : List Nat)
    (o : List WriteResult) :
    (plcrash_async_file_flush f handle o).1.limit_bytes = f.limit_bytes ∧
    (plcrash_async_file_flush f handle o).1.total_bytes = f.total_bytes ∧
    (plcrash_async_file_flush f handle o).1.buffer = f.buffer := by
  unfold plcrash_async_file_flush
  by_cases hz : f.buflen = 0
  · simp [hz]
  · simp only [if_neg hz]
    by_cases hfl : (plcrash_async_writen handle (f.buffer.take f.buflen) o).2.1 = true
    · simp [hfl]
    · simp only [Bool.not_eq_true] at hfl
      simp [hfl]

theorem flush_buflen_le (f : plcrash_async_file_t) (handle : List Nat)
    (o : List WriteResult) (hb : f.buflen ≤ f.buffer.length) :
    (plcrash_async_file_flush f handle o).1.buflen ≤
      (plcrash_async_file_flush f handle o).1.buffer.length := by
  unfold plcrash_async_file_flush
  by_cases hz : f.buflen = 0
  · simp [hz, hb]
  · simp only [if_neg hz]
    by_cases hfl : (plcrash_async_writen handle (f.buffer.take f.buflen) o).2.1 = true
    · simp [hfl]
    · simp only [Bool.not_eq_true] at hfl
      simp [hfl, hb]

theorem flush_fail_state (f : plcrash_async_file_t) (handle : List Nat)
    (o : List WriteResult)
    (hfail : (plcrash_async_file_flush f handle o).2.2.1 = false) :
    (plcrash_async_file_flush f handle o).1 = f := by
  unfold plcrash_async_file_flush at hfail ⊢
  by_cases hz : f.buflen = 0
  · simp [hz] at hfail
  · simp only [if_neg hz] at hfail ⊢
    by_cases hfl : (plcrash_async_writen handle (f.buffer.take f.buflen) o).2.1 = true
    · simp [hfl] at hfail
    · simp only [Bool.not_eq_true] at hfl
      simp [hfl]

theorem flush_ok_state (f : plcrash_async_file_t) (handle : List Nat)
    (o : List WriteResult)
    (hok : (plcrash_async_file_flush f handle o).2.2.1 = true) :
    (plcrash_async_file_flush f handle o).1 = { f with buflen := 0 } ∧
    (plcrash_async_file_flush f handle o).2.1 = handle ++ f.buffer.take f.buflen := by
  unfold plcrash_async_file_flush at hok ⊢
  by_cases hz : f.buflen = 0
  · simp only [if_pos hz]
    constructor
    · cases f
      simp_all
    · simp [hz]
  · simp only [if_neg hz] at hok ⊢
    by_cases hfl : (plcrash_async_writen handle (f.buffer.take f.buflen) o).2.1 = true
    · simp only [hfl, if_pos rfl]
      exact ⟨rfl, writen_ok _ _ _ hfl⟩
    · simp only [Bool.not_eq_true] at hfl
      simp [hfl] at hok

theorem close_ok_account (f : plcrash_async_file_t) (handle : List Nat)
    (o : List WriteResult) (closeOk : Bool)
    (hok : (plcrash_async_file_close f handle o closeOk).2.2.1 = true) :
    (plcrash_async_file_close f handle o closeOk).2.1 =
      handle ++ f.buffer.take f.buflen ∧
    (plcrash_async_file_close f handle o closeOk).1.buflen = 0 := by
  unfold plcrash_async_file_close at hok ⊢
  by_cases hfl : (plcrash_async_file_flush f handle o).2.2.1 = true
  · simp only [hfl, if_true]
    have := flush_ok_state f handle o hfl
    exact ⟨this.2, by rw [this.1]⟩
  · simp only [Bool.not_eq_true] at hfl
    simp [hfl] at hok

theorem runOp_limit (s : plcrash_async_file_t × List Nat) (op : FileOp) :
    (runOp s op).1.limit_bytes = s.1.limit_bytes := by
  cases op with
  | write d o => exact (write_fields _ _ _ _).1
  | flush o => exact (flush_fields _ _ _).1
  | close o c =>
    unfold runOp plcrash_async_file_close
    by_cases hfl : (plcrash_async_file_flush s.1 s.2 o).2.2.1 = true
    · simp only [hfl, if_true]
      exact (flush_fields _ _ _).1
    · simp only [Bool.not_eq_true] at hfl
      simp only [hfl]
      exact (flush_fields _ _ _).1

theorem runOp_total_mono (s : plcrash_async_file_t × List Nat) (op : FileOp) :
    s.1.total_bytes ≤ (runOp s op).1.total_bytes := by
  cases op with
  | write d o =>
    show s.1.total_bytes ≤ (plcrash_async_file_write s.1 s.2 d o).1.total_bytes
    rw [write_total]
    split
    · exact Nat.le_refl _
    · split <;> omega
  | flush o => exact Nat.le_of_eq (flush_fields _ _ _).2.1.symm
  | close o c =>
    unfold runOp plcrash_async_file_close
    by_cases hfl : (plcrash_async_file_flush s.1 s.2 o).2.2.1 = true
    · simp only [hfl, if_true]
      exact Nat.le_of_eq (flush_fields _ _ _).2.1.symm
    · simp only [Bool.not_eq_true] at hfl
      simp only [hfl]
      exact Nat.le_of_eq (flush_fields _ _ _).2.1.symm

theorem runOp_buflen_le (s : plcrash_async_file_t × List Nat) (op : FileOp)
    (hb : s.1.buflen ≤ s.1.buffer.length) :
    (runOp s op).1.buflen ≤ (runOp s op).1.buffer.length := by
  cases op with
  | write d o => exact write_buflen_le _ _ _ _ hb
  | flush o => exact flush_buflen_le _ _ _ hb
  | close o c =>
    unfold runOp plcrash_async_file_close
    by_cases hfl : (plcrash_async_file_flush s.1 s.2 o).2.2.1 = true
    · simp only [hfl, if_true]
      exact flush_buflen_le _ _ _ hb
    · simp only [Bool.not_eq_true] at hfl
      simp only [hfl]
      exact flush_buflen_le _ _ _ hb

theorem runOps_limit (s : plcrash_async_file_t × List Nat) (ops : List FileOp) :
    (runOps s ops).1.limit_bytes = s.1.limit_bytes := by
  induction ops generalizing s with
  | nil => rfl
  | cons op ops ih => rw [runOps, ih, runOp_limit]

theorem runOps_total_mono (s : plcrash_async_file_t × List Nat) (ops : List FileOp) :
    s.1.total_bytes ≤ (runOps s ops).1.total_bytes := by
  induction ops generalizing s with
  | nil => exact Nat.le_refl _
  | cons op ops ih =>
    rw [runOps]
    exact Nat.le_trans (runOp_total_mono s op)
      (ih ((runOp s op).1, (runOp s op).2.1))

theorem runOps_buflen_le (s : plcrash_async_file_t × List Nat) (ops : List FileOp)
    (hb : s.1.buflen ≤ s.1.buffer.length) :
    (runOps s ops).1.buflen ≤ (runOps s ops).1.buffer.length := by
  induction ops generalizing s with
  | nil => exact hb
  | cons op ops ih =>
    rw [runOps]
    exact ih _ (runOp_buflen_le s op hb)

theorem runOps_total_accepted (s : plcrash_async_file_t × List Nat)
    (ops : List FileOp) :
    (runOps s ops).1.total_bytes =
      limitAcceptedTotal s.1.limit_bytes s.1.total_bytes (writeLens ops) := by
  induction ops generalizing s with
  | nil => rfl
  | cons op ops ih =>
    rw [runOps, ih]
    cases op with
    | write d o =>
      show limitAcceptedTotal (plcrash_async_file_write s.1 s.2 d o).1.limit_bytes
          (plcrash_async_file_write s.1 s.2 d o).1.total_bytes (writeLens ops) = _
      rw [(write_fields _ _ _ _).1, write_total]
      show _ = limitAcceptedTotal s.1.limit_bytes s.1.total_bytes (d.length :: writeLens ops)
      rw [limitAcceptedTotal]
      split
      · rfl
      · split <;> rfl
    | flush o =>
      show limitAcceptedTotal (plcrash_async_file_flush s.1 s.2 o).1.limit_bytes
          (plcrash_async_file_flush s.1 s.2 o).1.total_bytes (writeLens ops) = _
      rw [(flush_fields _ _ _).1, (flush_fields _ _ _).2.1]
      rfl
    | close o c =>
      have h1 : (runOp s (FileOp.close o c)).1.limit_bytes = s.1.limit_bytes :=
        runOp_limit s _
      have h2 : (runOp s (FileOp.close o c)).1.total_bytes = s.1.total_bytes := by
        unfold runOp plcrash_async_file_close
        by_cases hfl : (plcrash_async_file_flush s.1 s.2 o).2.2.1 = true
        · simp only [hfl, if_true]
          exact (flush_fields _ _ _).2.1
        · simp only [Bool.not_eq_true] at hfl
          simp only [hfl]
          exact (flush_fields _ _ _).2.1
      rw [h1, h2]
      rfl

theorem runWrites_ok_account (ws : List (List Nat × List WriteResult))
    (f : plcrash_async_file_t) (handle : List Nat)
    (hb : f.buflen ≤ f.buffer.length)
    (hall : (runWrites f handle ws).2.2 = true) :
    (runWrites f handle ws).2.1.length + (runWrites f handle ws).1.buflen =
        handle.length + f.buflen + (ws.map (fun p => p.1.length)).sum ∧
    (runWrites f handle ws).1.buflen ≤ (runWrites f handle ws).1.buffer.length := by
  induction ws generalizing f handle with
  | nil =>
    exact ⟨by simp [runWrites], hb⟩
  | cons p ws ih =>
    simp only [runWrites] at hall ⊢
    simp only [Bool.and_eq_true] at hall
    have hok : (plcrash_async_file_write f handle p.1 p.2).2.2.1 = true := hall.1
    have hstep := write_ok_account f handle p.1 p.2 hb hok
    have hble := write_buflen_le f handle p.1 p.2 hb
    have hih := ih (plcrash_async_file_write f handle p.1 p.2).1
      (plcrash_async_file_write f handle p.1 p.2).2.1 hble hall.2
    refine ⟨?_, hih.2⟩
    rw [hih.1]
    simp only [List.map_cons, List.sum_cons]
    omega

theorem memcpyLoop_getElem? (dest source : List Nat) (n i : Nat)
    (hi : i < n) (hd : i < dest.length) (hs : i < source.length) :
    (memcpyLoop dest source n)[i]? = source[i]? := by
  have hxlen : i < (memcpyLoop dest source n).length := by
    rw [memcpyLoop_length]; exact hd
  have hgd := memcpyLoop_getD dest source n i
  rw [if_pos ⟨hi, hd⟩] at hgd
  rw [List.getElem?_eq_getElem hxlen, List.getElem?_eq_getElem hs]
  rw [List.getD_eq_getElem _ 0 hxlen, List.getD_eq_getElem _ 0 hs] at hgd
  exact congrArg Option.some hgd

/-- C7: the bounded byte-string compare agrees everywhere with the
specified semantics (signed difference of the first differing byte as
unsigned values, 0 when a common terminator is reached before n is
exhausted or when the budget reaches zero during the scan), and in
particular on the strings abc and abd with n = 3 it returns a nonzero
value whose sign matches the comparison of the differing third bytes
(99 versus 100). -/
theorem C7_strncmp_spec :
    (∀ s1 s2 n, plcrash_async_strncmp s1 s2 n = boundedCompareSpec s1 s2 n) ∧
    plcrash_async_strncmp [97, 98, 99] [97, 98, 100] 3 = (99 : Int) - 100 ∧
    plcrash_async_strncmp [97, 98, 99] [97, 98, 100] 3 < 0 :=
  ⟨fun s1 s2 n => strncmpLoop_eq_specGo s1 s2 n 0, by decide, by decide⟩

/-- C8: after plcrash_async_memcpy dest source n with n within both
buffers, the first n bytes of the destination equal the first n bytes
of the source, and the value returned is the source pointer, not the
destination. -/
theorem C8_memcpy_spec (dest source : List Nat) (n : Nat)
    (hd : n ≤ dest.length) (hs : n ≤ source.length) :
    (plcrash_async_memcpy dest source n).1.take n = source.take n ∧
    (plcrash_async_memcpy dest source n).2 = PtrTag.source := by
  refine ⟨?_, rfl⟩
  apply List.ext_getElem?
  intro i
  by_cases hi : i < n
  · rw [List.getElem?_take, List.getElem?_take, if_pos hi, if_pos hi]
    exact memcpyLoop_getElem? dest source n i hi (by omega) (by omega)
  · have h1 : ((plcrash_async_memcpy dest source n).1.take n).length ≤ i := by
      simp [plcrash_async_memcpy, memcpyLoop_length]
      omega
    have h2 : (source.take n).length ≤ i := by
      simp
      omega
    rw [List.getElem?_eq_none h1, List.getElem?_eq_none h2]

theorem C8_memcpy_spec_witness :
    (plcrash_async_memcpy [9, 9, 9] [1, 2, 3] 2).1.take 2 = ([1, 2, 3] : List Nat).take 2 ∧
    (plcrash_async_memcpy [9, 9, 9] [1, 2, 3] 2).2 = PtrTag.source :=
  C8_memcpy_spec [9, 9, 9] [1, 2, 3] 2 (by decide) (by decide)

/-- C2: a write whose length would push total_bytes past a nonzero
limit returns false and changes nothing at all (writer fields, handle
contents, oracle); in particular, with limit 10, a first write of 6
bytes succeeds leaving total_bytes 6, and a second write of 6 bytes
fails leaving total_bytes 6. -/
theorem C2_limit_reject :
    (∀ (f : plcrash_async_file_t) (handle data : List Nat) (o : List WriteResult),
      f.limit_bytes ≠ 0 → data.length + f.total_bytes > f.limit_bytes →
      plcrash_async_file_write f handle data o = (f, handle, false, o)) ∧
    ((plcrash_async_file_write (plcrash_async_file_init (List.replicate 8 0) 10)
        [] [1, 2, 3, 4, 5, 6] []).2.2.1 = true ∧
      (plcrash_async_file_write (plcrash_async_file_init (List.replicate 8 0) 10)
        [] [1, 2, 3, 4, 5, 6] []).1.total_bytes = 6 ∧
      (plcrash_async_file_write
        (plcrash_async_file_write (plcrash_async_file_init (List.replicate 8 0) 10)
          [] [1, 2, 3, 4, 5, 6] []).1
        (plcrash_async_file_write (plcrash_async_file_init (List.replicate 8 0) 10)
          [] [1, 2, 3, 4, 5, 6] []).2.1
        [1, 2, 3, 4, 5, 6] []).2.2.1 = false ∧
      (plcrash_async_file_write
        (plcrash_async_file_write (plcrash_async_file_init (List.replicate 8 0) 10)
          [] [1, 2, 3, 4, 5, 6] []).1
        (plcrash_async_file_write (plcrash_async_file_init (List.replicate 8 0) 10)
          [] [1, 2, 3, 4, 5, 6] []).2.1
        [1, 2, 3, 4, 5, 6] []).1.total_bytes = 6) := by
  constructor
  · intro f handle data o h1 h2
    simp only [plcrash_async_file_write, if_pos (And.intro h1 h2)]
  · decide

theorem C2_limit_reject_witness :
    plcrash_async_file_write
        { limit_bytes := 10, total_bytes := 6, buffer := [0, 0], buflen := 0 }
        [] [1, 2, 3, 4, 5, 6] [] =
      ({ limit_bytes := 10, total_bytes := 6, buffer := [0, 0], buflen := 0 },
        [], false, []) :=
  C2_limit_reject.1
    { limit_bytes := 10, total_bytes := 6, buffer := [0, 0], buflen := 0 }
    [] [1, 2, 3, 4, 5, 6] [] (by decide) (by decide)

/-- C6: flush succeeds trivially on an empty buffer; otherwise it raw
writes the buffered bytes, resetting buflen to 0 on success with the
bytes appended to the handle, and leaving the whole writer state
untouched on failure so the buffered bytes can be retried. -/
theorem C6_flush_spec (f : plcrash_async_file_t) (handle : List Nat)
    (o : List WriteResult) :
    (f.buflen = 0 → plcrash_async_file_flush f handle o = (f, handle, true, o)) ∧
    ((plcrash_async_file_flush f handle o).2.2.1 = true →
      (plcrash_async_file_flush f handle o).1 = { f with buflen := 0 } ∧
      (plcrash_async_file_flush f handle o).2.1 = handle ++ f.buffer.take f.buflen) ∧
    ((plcrash_async_file_flush f handle o).2.2.1 = false →
      (plcrash_async_file_flush f handle o).1 = f) :=
  ⟨fun hz => by simp [plcrash_async_file_flush, hz],
   fun hok => flush_ok_state f handle o hok,
   fun hfail => flush_fail_state f handle o hfail⟩

theorem C6_flush_spec_witness :
    plcrash_async_file_flush (plcrash_async_file_init [0, 0] 0) [] [] =
      (plcrash_async_file_init [0, 0] 0, [], true, []) :=
  (C6_flush_spec (plcrash_async_file_init [0, 0] 0) [] []).1 rfl

/-- C9: the buffer never holds more valid bytes than its capacity:
every operation preserves buflen less than or equal to the buffer
capacity, and every state reached from init by any sequence of write,
flush and close operations satisfies it. -/
theorem C9_buflen_invariant :
    (∀ (s : plcrash_async_file_t × List Nat) (op : FileOp),
      s.1.buflen ≤ s.1.buffer.length →
      (runOp s op).1.buflen ≤ (runOp s op).1.buffer.length) ∧
    (∀ (buffer : List Nat) (limit : Nat) (h0 : List Nat) (ops : List FileOp),
      (runOps (plcrash_async_file_init buffer limit, h0) ops).1.buflen ≤
        (runOps (plcrash_async_file_init buffer limit, h0) ops).1.buffer.length) :=
  ⟨runOp_buflen_le,
   fun buffer limit h0 ops =>
     runOps_buflen_le (plcrash_async_file_init buffer limit, h0) ops (Nat.zero_le _)⟩

theorem C9_buflen_invariant_witness :
    (runOp (plcrash_async_file_init [0, 0] 0, []) (FileOp.write [1] [])).1.buflen ≤
      (runOp (plcrash_async_file_init [0, 0] 0, []) (FileOp.write [1] [])).1.buffer.length :=
  C9_buflen_invariant.1 (plcrash_async_file_init [0, 0] 0, []) (FileOp.write [1] [])
    (by decide)

theorem storeBytes_nil (buf : List Nat) (off : Nat) :
    storeBytes buf off [] = buf := by
  simp [storeBytes, plcrash_async_memcpy, memcpyLoop]

/-- C10: on any state whose buffered bytes fit the capacity and whose
accepted total respects a nonzero limit, a zero-length write returns
success and is a complete no-op: writer state, handle contents and
oracle are all unchanged. -/
theorem C10_empty_write (f : plcrash_async_file_t) (handle : List Nat)
    (o : List WriteResult) (hb : f.buflen ≤ f.buffer.length)
    (hl : f.limit_bytes ≠ 0 → f.total_bytes ≤ f.limit_bytes) :
    plcrash_async_file_write f handle [] o = (f, handle, true, o) := by
  have hrej : ¬(f.limit_bytes ≠ 0 ∧
      (List.length ([] : List Nat)) + f.total_bytes > f.limit_bytes) := by
    rintro ⟨h1, h2⟩
    have := hl h1
    simp at h2
    omega
  simp only [plcrash_async_file_write, if_neg hrej]
  have hf1 : (if f.limit_bytes ≠ 0 then
      { f with total_bytes := f.total_bytes + (List.length ([] : List Nat)) }
      else f) = f := by
    split
    · cases f
      simp
    · rfl
  rw [hf1]
  have hov : ¬(f.buflen + (List.length ([] : List Nat)) > f.buffer.length) := by
    simp
    omega
  simp only [fileWriteBody, if_neg hov]
  have hfit : (List.length ([] : List Nat)) + f.buflen ≤ f.buffer.length := by
    simp
    omega
  simp only [fileWriteFitStage, if_pos hfit, storeBytes_nil]
  cases f
  simp

theorem C10_empty_write_witness :
    plcrash_async_file_write
        { limit_bytes := 5, total_bytes := 2, buffer := [7, 7], buflen := 1 }
        [3] [] [WriteResult.err] =
      ({ limit_bytes := 5, total_bytes := 2, buffer := [7, 7], buflen := 1 },
        [3], true, [WriteResult.err]) :=
  C10_empty_write
    { limit_bytes := 5, total_bytes := 2, buffer := [7, 7], buflen := 1 }
    [3] [WriteResult.err] (by decide) (fun _ => by decide)

/-- C1 counterexample: a limit-0 writer with capacity 2. A buffered
write of two bytes succeeds; a second write of one byte triggers an
internal flush whose first OS write delivers one byte and whose second
fails, so the write fails after delivering one byte while the buffer
keeps both; the close then re-delivers the whole buffer, and the file
ends with 3 bytes although the writes that returned success total 2. -/
theorem C1_counterexample :
    (plcrash_async_file_write (plcrash_async_file_init [0, 0] 0) [] [5, 6] []).2.2.1
        = true ∧
    (plcrash_async_file_write
      (plcrash_async_file_write (plcrash_async_file_init [0, 0] 0) [] [5, 6] []).1
      (plcrash_async_file_write (plcrash_async_file_init [0, 0] 0) [] [5, 6] []).2.1
      [7] [WriteResult.ok 0, WriteResult.err]).2.2.1 = false ∧
    (plcrash_async_file_close
      (plcrash_async_file_write
        (plcrash_async_file_write (plcrash_async_file_init [0, 0] 0) [] [5, 6] []).1
        (plcrash_async_file_write (plcrash_async_file_init [0, 0] 0) [] [5, 6] []).2.1
        [7] [WriteResult.ok 0, WriteResult.err]).1
      (plcrash_async_file_write
        (plcrash_async_file_write (plcrash_async_file_init [0, 0] 0) [] [5, 6] []).1
        (plcrash_async_file_write (plcrash_async_file_init [0, 0] 0) [] [5, 6] []).2.1
        [7] [WriteResult.ok 0, WriteResult.err]).2.1
      [WriteResult.ok 9] true).2.2.1 = true ∧
    (plcrash_async_file_close
      (plcrash_async_file_write
        (plcrash_async_file_write (plcrash_async_file_init [0, 0] 0) [] [5, 6] []).1
        (plcrash_async_file_write (plcrash_async_file_init [0, 0] 0) [] [5, 6] []).2.1
        [7] [WriteResult.ok 0, WriteResult.err]).1
      (plcrash_async_file_write
        (plcrash_async_file_write (plcrash_async_file_init [0, 0] 0) [] [5, 6] []).1
        (plcrash_async_file_write (plcrash_async_file_init [0, 0] 0) [] [5, 6] []).2.1
        [7] [WriteResult.ok 0, WriteResult.err]).2.1
      [WriteResult.ok 9] true).2.1.length = 3 ∧
    (3 : Nat) ≠ 2 := by
  decide

/-- C1 amended: with limit 0, a write whose data still fits beside the
buffered bytes issues no raw write at all (handle and oracle are
untouched, the data is only buffered); and over any sequence of writes
of chunks no larger than the capacity in which every write returned
success, a successful close leaves the handle holding exactly the sum
of the lengths of all the writes. -/
theorem C1_buffered_accounting :
    (∀ (f : plcrash_async_file_t) (handle data : List Nat) (o : List WriteResult),
      f.limit_bytes = 0 → data.length + f.buflen ≤ f.buffer.length →
      plcrash_async_file_write f handle data o =
        ({ f with buffer := storeBytes f.buffer f.buflen data,
                  buflen := f.buflen + data.length }, handle, true, o)) ∧
    (∀ (buffer h0 : List Nat) (ws : List (List Nat × List WriteResult))
      (oc : List WriteResult) (ck : Bool),
      (∀ p ∈ ws, p.1.length ≤ buffer.length) →
      (runWrites (plcrash_async_file_init buffer 0) h0 ws).2.2 = true →
      (plcrash_async_file_close (runWrites (plcrash_async_file_init buffer 0) h0 ws).1
        (runWrites (plcrash_async_file_init buffer 0) h0 ws).2.1 oc ck).2.2.1 = true →
      (plcrash_async_file_close (runWrites (plcrash_async_file_init buffer 0) h0 ws).1
        (runWrites (plcrash_async_file_init buffer 0) h0 ws).2.1 oc ck).2.1.length =
        h0.length + (ws.map (fun p => p.1.length)).sum) := by
  constructor
  · intro f handle data o hl0 hroom
    have hrej : ¬(f.limit_bytes ≠ 0 ∧
        data.length + f.total_bytes > f.limit_bytes) := by
      rintro ⟨h1, _⟩
      exact h1 hl0
    have hlne : ¬(f.limit_bytes ≠ 0) := fun h => h hl0
    simp only [plcrash_async_file_write, if_neg hrej, if_neg hlne]
    have hov : ¬(f.buflen + data.length > f.buffer.length) := by omega
    simp only [fileWriteBody, if_neg hov]
    simp only [fileWriteFitStage, if_pos (by omega :
      data.length + f.buflen ≤ f.buffer.length)]
  · intro buffer h0 ws oc ck hchunks hall hclose
    have hb0 : (plcrash_async_file_init buffer 0).buflen ≤
        (plcrash_async_file_init buffer 0).buffer.length := Nat.zero_le _
    have hacc := runWrites_ok_account ws (plcrash_async_file_init buffer 0) h0 hb0 hall
    have hcl := close_ok_account (runWrites (plcrash_async_file_init buffer 0) h0 ws).1
      (runWrites (plcrash_async_file_init buffer 0) h0 ws).2.1 oc ck hclose
    rw [hcl.1]
    simp only [List.length_append, List.length_take]
    have hmin : min (runWrites (plcrash_async_file_init buffer 0) h0 ws).1.buflen
        (runWrites (plcrash_async_file_init buffer 0) h0 ws).1.buffer.length =
        (runWrites (plcrash_async_file_init buffer 0) h0 ws).1.buflen := by
      exact Nat.min_eq_left hacc.2
    rw [hmin]
    have haccount := hacc.1
    have hbinit : (plcrash_async_file_init buffer 0).buflen = 0 := rfl
    rw [hbinit] at haccount
    omega

theorem C1_buffered_accounting_witness :
    (plcrash_async_file_close
        (runWrites (plcrash_async_file_init [0, 0] 0) [] [([1], [])]).1
        (runWrites (plcrash_async_file_init [0, 0] 0) [] [([1], [])]).2.1
        [WriteResult.ok 9] true).2.1.length =
      ([] : List Nat).length +
        (([([1], [])] : List (List Nat × List WriteResult)).map
          (fun p => p.1.length)).sum :=
  C1_buffered_accounting.2 [0, 0] [] [([1], [])] [WriteResult.ok 9] true
    (by decide) (by decide) (by decide)

/-- C3 counterexample: limit 10, capacity 8. A write of 6 bytes is
accepted, a second write of 6 bytes is rejected, yet a following write
of 4 bytes succeeds (6 + 4 fits under the limit), contradicting the
claim that after one rejection every subsequent write fails. -/
theorem C3_counterexample :
    (plcrash_async_file_write (plcrash_async_file_init (List.replicate 8 0) 10)
        [] [1, 2, 3, 4, 5, 6] []).2.2.1 = true ∧
    (plcrash_async_file_write
      (plcrash_async_file_write (plcrash_async_file_init (List.replicate 8 0) 10)
        [] [1, 2, 3, 4, 5, 6] []).1
      (plcrash_async_file_write (plcrash_async_file_init (List.replicate 8 0) 10)
        [] [1, 2, 3, 4, 5, 6] []).2.1
      [1, 2, 3, 4, 5, 6] []).2.2.1 = false ∧
    (plcrash_async_file_write
      (plcrash_async_file_write
        (plcrash_async_file_write (plcrash_async_file_init (List.replicate 8 0) 10)
          [] [1, 2, 3, 4, 5, 6] []).1
        (plcrash_async_file_write (plcrash_async_file_init (List.replicate 8 0) 10)
          [] [1, 2, 3, 4, 5, 6] []).2.1
        [1, 2, 3, 4, 5, 6] []).1
      (plcrash_async_file_write
        (plcrash_async_file_write (plcrash_async_file_init (List.replicate 8 0) 10)
          [] [1, 2, 3, 4, 5, 6] []).1
        (plcrash_async_file_write (plcrash_async_file_init (List.replicate 8 0) 10)
          [] [1, 2, 3, 4, 5, 6] []).2.1
        [1, 2, 3, 4, 5, 6] []).2.1
      [7, 8, 9, 10] [WriteResult.ok 9]).2.2.1 = true := by
  decide

/-- C3 amended: a rejected write changes nothing (no rollback of the
bytes already accepted), and after the rejection every subsequent
write whose length is at least the rejected length also fails, however
many operations are run in between; writes strictly shorter than the
remaining budget may still succeed. -/
theorem C3_reject_monotone (f : plcrash_async_file_t) (handle data : List Nat)
    (o : List WriteResult) (hl : f.limit_bytes ≠ 0)
    (hrej : data.length + f.total_bytes > f.limit_bytes) :
    plcrash_async_file_write f handle data o = (f, handle, false, o) ∧
    ∀ (ops : List FileOp) (data2 : List Nat) (o2 : List WriteResult),
      data.length ≤ data2.length →
      (plcrash_async_file_write (runOps (f, handle) ops).1
        (runOps (f, handle) ops).2 data2 o2).2.2.1 = false := by
  constructor
  · simp only [plcrash_async_file_write, if_pos (And.intro hl hrej)]
  · intro ops data2 o2 hlen
    have hlimit : (runOps (f, handle) ops).1.limit_bytes = f.limit_bytes :=
      runOps_limit (f, handle) ops
    have hmono : f.total_bytes ≤ (runOps (f, handle) ops).1.total_bytes :=
      runOps_total_mono (f, handle) ops
    have hrej2 : (runOps (f, handle) ops).1.limit_bytes ≠ 0 ∧
        data2.length + (runOps (f, handle) ops).1.total_bytes >
          (runOps (f, handle) ops).1.limit_bytes := by
      rw [hlimit]
      exact ⟨hl, by omega⟩
    simp only [plcrash_async_file_write, if_pos hrej2]

theorem C3_reject_monotone_witness :
    plcrash_async_file_write (plcrash_async_file_init [0] 1) [] [5, 5] [] =
      (plcrash_async_file_init [0] 1, [], false, []) ∧
    (plcrash_async_file_write
      (runOps (plcrash_async_file_init [0] 1, []) []).1
      (runOps (plcrash_async_file_init [0] 1, []) []).2 [5, 5, 5] []).2.2.1 = false :=
  have h := C3_reject_monotone (plcrash_async_file_init [0] 1) [] [5, 5] []
    (by decide) (by decide)
  ⟨h.1, h.2 [] [5, 5, 5] [] (by decide)⟩

/-- C4 counterexample: with limit 0 a successful one-byte write leaves
total_bytes at 0, not at the sum 1 of the accepted lengths; and with
limit 5 a write that is accepted by the limit check but then fails in
its internal flush still adds its length to total_bytes (3, although
the writes that returned success total 1). -/
theorem C4_counterexample :
    ((plcrash_async_file_write (plcrash_async_file_init [0, 0] 0) [] [7] []).2.2.1
        = true ∧
      (plcrash_async_file_write (plcrash_async_file_init [0, 0] 0) [] [7] []).1.total_bytes
        = 0 ∧ (0 : Nat) ≠ 1) ∧
    ((plcrash_async_file_write (plcrash_async_file_init [0] 5) [] [1] []).2.2.1
        = true ∧
      (plcrash_async_file_write
        (plcrash_async_file_write (plcrash_async_file_init [0] 5) [] [1] []).1
        (plcrash_async_file_write (plcrash_async_file_init [0] 5) [] [1] []).2.1
        [2, 3] [WriteResult.err]).2.2.1 = false ∧
      (plcrash_async_file_write
        (plcrash_async_file_write (plcrash_async_file_init [0] 5) [] [1] []).1
        (plcrash_async_file_write (plcrash_async_file_init [0] 5) [] [1] []).2.1
        [2, 3] [WriteResult.err]).1.total_bytes = 3 ∧ (3 : Nat) ≠ 1) := by
  decide

/-- C4 amended: total_bytes never decreases under any operation, and
after any sequence of operations from init it equals the running
accounting of the limit check: each write length is added exactly when
the limit is nonzero and the length still fits under it at that point
(even if the raw write afterwards fails); with limit 0 it stays 0. -/
theorem C4_total_accounting :
    (∀ (s : plcrash_async_file_t × List Nat) (op : FileOp),
      s.1.total_bytes ≤ (runOp s op).1.total_bytes) ∧
    (∀ (buffer : List Nat) (limit : Nat) (h0 : List Nat) (ops : List FileOp),
      (runOps (plcrash_async_file_init buffer limit, h0) ops).1.total_bytes =
        limitAcceptedTotal limit 0 (writeLens ops)) :=
  ⟨runOp_total_mono,
   fun buffer limit h0 ops =>
     runOps_total_accepted (plcrash_async_file_init buffer limit, h0) ops⟩

theorem C4_total_accounting_witness :
    (runOps (plcrash_async_file_init [0] 5, []) [FileOp.write [1] []]).1.total_bytes =
      limitAcceptedTotal 5 0 (writeLens [FileOp.write [1] []]) :=
  C4_total_accounting.2 [0] 5 [] [FileOp.write [1] []]

/-- C5 counterexample: capacity 2 with 2 bytes buffered; a one-byte
write triggers the internal flush, the raw write fails, the write
returns false, and buflen is still 2 - not reset to 0 as claimed. -/
theorem C5_counterexample :
    (plcrash_async_file_write
        (plcrash_async_file_write (plcrash_async_file_init [0, 0] 0) [] [1, 2] []).1
        (plcrash_async_file_write (plcrash_async_file_init [0, 0] 0) [] [1, 2] []).2.1
        [3] [WriteResult.err]).2.2.1 = false ∧
    (plcrash_async_file_write
        (plcrash_async_file_write (plcrash_async_file_init [0, 0] 0) [] [1, 2] []).1
        (plcrash_async_file_write (plcrash_async_file_init [0, 0] 0) [] [1, 2] []).2.1
        [3] [WriteResult.err]).1.buflen ≠ 0 := by
  decide

/-- C5 amended: when a write triggers the internal flush and that
flush raw-write fails, the write returns failure and the buffer is NOT
drained: buflen and the buffer contents are left unchanged, so the
buffered bytes remain available for a later flush. -/
theorem C5_failed_flush_keeps_buffer (f : plcrash_async_file_t)
    (handle data : List Nat) (o : List WriteResult)
    (hacc : ¬(f.limit_bytes ≠ 0 ∧ data.length + f.total_bytes > f.limit_bytes))
    (hov : f.buflen + data.length > f.buffer.length)
    (hfail : (plcrash_async_writen handle (f.buffer.take f.buflen) o).2.1 = false) :
    (plcrash_async_file_write f handle data o).2.2.1 = false ∧
    (plcrash_async_file_write f handle data o).1.buflen = f.buflen ∧
    (plcrash_async_file_write f handle data o).1.buffer = f.buffer := by
  simp only [plcrash_async_file_write, if_neg hacc]
  by_cases hl : f.limit_bytes ≠ 0
  · simp only [if_pos hl]
    simp only [fileWriteBody]
    rw [if_pos (by simpa using hov)]
    simp only [hfail]
    simp
  · simp only [if_neg hl]
    simp only [fileWriteBody, if_pos hov]
    simp only [hfail]
    simp

theorem C5_failed_flush_keeps_buffer_witness :
    (plcrash_async_file_write
        { limit_bytes := 0, total_bytes := 0, buffer := [1, 2], buflen := 2 }
        [] [3] [WriteResult.err]).2.2.1 = false ∧
    (plcrash_async_file_write
        { limit_bytes := 0, total_bytes := 0, buffer := [1, 2], buflen := 2 }
        [] [3] [WriteResult.err]).1.buflen = 2 ∧
    (plcrash_async_file_write
        { limit_bytes := 0, total_bytes := 0, buffer := [1, 2], buflen := 2 }
        [] [3] [WriteResult.err]).1.buffer = [1, 2] :=
  C5_failed_flush_keeps_buffer
    { limit_bytes := 0, total_bytes := 0, buffer := [1, 2], buflen := 2 }
    [] [3] [WriteResult.err] (by decide) (by decide) (by decide)
